import Mathlib

/-
Shallow embedding of the `typed_count` header (typed_count/include/typed_count.h):
a unit-tagged count type `count_of` over a 64-bit `size_t`, unit conversion via
`count_holder::convert`, wrap-around unsigned arithmetic, literal constructors,
and the bounds-carrying `safe_array` view.
-/

namespace TypedCount

/-- Width of `std::size_t` on the modelled 64-bit platform: values live in
`[0, 2^64)`; the modulus is written as the decimal literal for `2^64`. -/
@[reducible] def wsize : Nat := 18446744073709551616

/-- Unsigned `size_t` subtraction with two's-complement wraparound:
for `x, y < 2^64` this is `(x - y) mod 2^64`. -/
def usub (x y : Nat) : Nat := (x + (wsize - y % wsize)) % wsize

/-- The compile-time unit marker types of the header: `std::byte`, `char`, `wchar_t`,
`Page`, `Kb`, `Mb`, `Gb`, `Tb`, plus arbitrary user unit types (any type with a
`unit_traits` specialization giving its byte size). -/
inductive CUnit where
  | byte
  | ch
  | wchar
  | page
  | kb
  | mb
  | gb
  | tb
  | user (sz : Nat)
  deriving DecidableEq

/-- Models `unit_traits<T>::size::value`: the byte size of each unit. `wchar_t` is 2 bytes on
the modelled platform (the demo program relies on this), `Page` is `8 * 1024`,
`Kb`/`Mb`/`Gb`/`Tb` are the successive powers of 1024, and a user unit carries its
own declared size. -/
def unit_size : CUnit → Nat
  | .byte => 1
  | .ch => 1
  | .wchar => 2
  | .page => 8 * 1024
  | .kb => 1024
  | .mb => 1024 * 1024
  | .gb => 1024 * 1024 * 1024
  | .tb => 1024 * 1024 * 1024 * 1024
  | .user sz => sz

/-- Models `count_of<T>`: a count tagged with a compile-time unit. The stored representation
is a single `size_t` magnitude (`count_holder::count_`). -/
structure count_of (u : CUnit) where
  mag : Nat
  deriving DecidableEq

/-- The explicit constructor `count_of(std::size_t count)`: the argument is a
`size_t`, hence reduced mod `2^64`. -/
def count_of.ofSize {u : CUnit} (n : Nat) : count_of u := ⟨n % wsize⟩

/-- Models `count_holder::convert(multiplier, divider)`: `count_ * multiplier / divider`
in `size_t` arithmetic (the product wraps mod `2^64`, the division truncates). -/
def count_holder.convert (cnt mult div : Nat) : Nat := cnt * mult % wsize / div

/-- Models `count_of<T>::to_count_of<U>()`: converts via
`convert(unit_traits<T>::size::value, unit_traits<U>::size::value)`. -/
def count_of.to_count_of {u : CUnit} (c : count_of u) (v : CUnit) : count_of v :=
  ⟨count_holder.convert c.mag (unit_size u) (unit_size v)⟩

/-- Models `count_of<T>::to_size()`: the raw `size_t` magnitude. -/
def count_of.to_size {u : CUnit} (c : count_of u) : Nat := c.mag

/-- Models `static_cast<int>` of a `size_t`: truncation to 32 bits, read as
two's-complement (`2^32 = 4294967296`, `2^31 = 2147483648`). -/
def toInt32 (n : Nat) : Int :=
  if n % 4294967296 < 2147483648 then ((n % 4294967296 : Nat) : Int)
  else ((n % 4294967296 : Nat) : Int) - 4294967296

/-- Models `count_of<T>::to_int()`: `static_cast<int>(count())`. -/
def count_of.to_int {u : CUnit} (c : count_of u) : Int := toInt32 c.mag

/-- Models `count_of<T>::to_ulong()`: `static_cast<unsigned long>(count())`; `unsigned long`
is 32 bits (`4294967296 = 2^32`) on the modelled platform. -/
def count_of.to_ulong {u : CUnit} (c : count_of u) : Nat := c.mag % 4294967296

/-- Models `to_byte_count()`: `to_count_of<std::byte>().to_size()`. -/
def count_of.to_byte_count {u : CUnit} (c : count_of u) : Nat :=
  (c.to_count_of .byte).to_size

/-- Models `to_int_byte_count()`: `to_count_of<std::byte>().to_int()`. -/
def count_of.to_int_byte_count {u : CUnit} (c : count_of u) : Int :=
  (c.to_count_of .byte).to_int

/-- Models `to_ulong_byte_count()`: `to_count_of<std::byte>().to_ulong()`. -/
def count_of.to_ulong_byte_count {u : CUnit} (c : count_of u) : Nat :=
  (c.to_count_of .byte).to_ulong

/-- Models `to_wchar_count()`: `to_count_of<wchar_t>().to_size()`. -/
def count_of.to_wchar_count {u : CUnit} (c : count_of u) : Nat :=
  (c.to_count_of .wchar).to_size

/-- Models `to_int_wchar_count()`: `to_count_of<wchar_t>().to_int()`. -/
def count_of.to_int_wchar_count {u : CUnit} (c : count_of u) : Int :=
  (c.to_count_of .wchar).to_int

/-- Models `to_ulong_wchar_count()`: `to_count_of<wchar_t>().to_ulong()`. -/
def count_of.to_ulong_wchar_count {u : CUnit} (c : count_of u) : Nat :=
  (c.to_count_of .wchar).to_ulong

/-- Models `count_of::operator+=` (via `count_holder::operator+=`: `count_ += other.count_`,
wrapping `size_t` addition). -/
def count_of.add_assign {u : CUnit} (a b : count_of u) : count_of u :=
  ⟨(a.mag + b.mag) % wsize⟩

/-- Models `count_of::operator-=` (via `count_holder::operator-=`: `count_ -= other.count_`,
wrapping `size_t` subtraction). -/
def count_of.sub_assign {u : CUnit} (a b : count_of u) : count_of u :=
  ⟨usub a.mag b.mag⟩

/-- Prefix `operator++`: increments the magnitude and returns the updated count. -/
def count_of.inc_pre {u : CUnit} (a : count_of u) : count_of u :=
  ⟨(a.mag + 1) % wsize⟩

/-- Prefix `operator--`: decrements the magnitude and returns the updated count. -/
def count_of.dec_pre {u : CUnit} (a : count_of u) : count_of u :=
  ⟨usub a.mag 1⟩

/-- The `operator++(int)` of `count_of`: copies `*this`, increments, returns the copy.
Modelled as (returned value, updated object). -/
def count_of.inc_post {u : CUnit} (a : count_of u) : count_of u × count_of u :=
  (a, a.inc_pre)

/-- The `operator--(int)` of `count_of`: copies `*this`, decrements, returns the copy.
Modelled as (returned value, updated object). -/
def count_of.dec_post {u : CUnit} (a : count_of u) : count_of u × count_of u :=
  (a, a.dec_pre)

/-- Free `operator+`: `count_of<T>(lhs.to_size() + rhs.to_size())`. -/
def count_of.add {u : CUnit} (a b : count_of u) : count_of u :=
  .ofSize (a.to_size + b.to_size)

/-- Free `operator-`: `count_of<T>(lhs.to_size() - rhs.to_size())` with the `size_t`
subtraction wrapping. -/
def count_of.sub {u : CUnit} (a b : count_of u) : count_of u :=
  .ofSize (usub a.to_size b.to_size)

/-- Free `operator==`: `lhs.to_size() == rhs.to_size()`. -/
def count_of.eqb {u : CUnit} (a b : count_of u) : Bool :=
  a.to_size == b.to_size

/-- Free `operator<`: `lhs.to_size() < rhs.to_size()`. -/
def count_of.ltb {u : CUnit} (a b : count_of u) : Bool :=
  decide (a.to_size < b.to_size)

/-- Free `operator<=`: `lhs < rhs || lhs == rhs`. -/
def count_of.leb {u : CUnit} (a b : count_of u) : Bool :=
  a.ltb b || a.eqb b

/-- Free `operator>`: `!(lhs <= rhs)`. -/
def count_of.gtb {u : CUnit} (a b : count_of u) : Bool :=
  !(a.leb b)

/-- Models `operator"" _bt`: `byte_count(static_cast<size_t>(count))`. -/
def lit_bt (n : Nat) : count_of .byte := .ofSize n

/-- Models `operator"" _ch`: `char_count(static_cast<size_t>(count))`. -/
def lit_ch (n : Nat) : count_of .ch := .ofSize n

/-- Models `operator"" _wch`: `wchar_count(static_cast<size_t>(count))`. -/
def lit_wch (n : Nat) : count_of .wchar := .ofSize n

/-- Models `operator"" _pg`: `page_count(static_cast<size_t>(count))`. -/
def lit_pg (n : Nat) : count_of .page := .ofSize n

/-- Models `operator"" _kb`: `kb_count(static_cast<size_t>(count))`. -/
def lit_kb (n : Nat) : count_of .kb := .ofSize n

/-- Models `operator"" _mb`: `mb_count(static_cast<size_t>(count))`. -/
def lit_mb (n : Nat) : count_of .mb := .ofSize n

/-- Models `operator"" _gb`: `gb_count(static_cast<size_t>(count))`. -/
def lit_gb (n : Nat) : count_of .gb := .ofSize n

/-- Models `operator"" _tb`, documented in the source as the "tb_count literal", but declared
there as `constexpr gb_count operator "" _tb(...) { return gb_count(...); }`:
it returns a Gb-tagged count. -/
def lit_tb (n : Nat) : count_of .gb := .ofSize n

/-- Models `safe_array<T>`: a raw element pointer paired with a `count_of` of remaining
elements. The pointer is modelled as an element-granular address, `0` playing the
role of `nullptr`. -/
structure safe_array (u : CUnit) where
  pElems : Nat
  count : count_of u
  deriving DecidableEq

/-- Models `safe_array::operator bool`: `pElems_ && count_ > count_t(0)`. -/
def safe_array.toBool {u : CUnit} (a : safe_array u) : Bool :=
  (a.pElems != 0) && a.count.gtb (count_of.ofSize 0)

/-- Models `safe_array::operator+=`: `pElems_ += distance.to_size(); count_ -= distance;`. -/
def safe_array.add_assign {u : CUnit} (a : safe_array u) (d : count_of u) :
    safe_array u :=
  ⟨a.pElems + d.to_size, a.count.sub_assign d⟩

/-- Models `safe_array::operator+`: `safe_array(pElems_ + distance.to_size(), count_ - distance)`. -/
def safe_array.add {u : CUnit} (a : safe_array u) (d : count_of u) : safe_array u :=
  ⟨a.pElems + d.to_size, a.count.sub d⟩

/-- Prefix `safe_array::operator++`: `*this += count_t(1)`. -/
def safe_array.inc_pre {u : CUnit} (a : safe_array u) : safe_array u :=
  a.add_assign (count_of.ofSize 1)

/-- The `safe_array::operator++(int)`: copies `*this`, advances by one, returns the
copy. Modelled as (returned value, updated object). -/
def safe_array.inc_post {u : CUnit} (a : safe_array u) : safe_array u × safe_array u :=
  (a, a.add_assign (count_of.ofSize 1))

theorem wsize_pos : 0 < wsize := by
  rw [wsize]
  omega

theorem wsize_eq : wsize = 18446744073709551616 := rfl

/-- In-range unsigned subtraction is ordinary subtraction. -/
theorem usub_eq_of_le {x y : Nat} (hy : y ≤ x) (hx : x < wsize) : usub x y = x - y := by
  simp only [usub, wsize] at *
  omega

/-- Models `usub` agrees with integer subtraction mod `2^64`. -/
theorem usub_emod (x y : Nat) :
    ((usub x y : Nat) : Int) = ((x : Int) - (y : Int)) % 18446744073709551616 := by
  simp only [usub, wsize]
  omega

/-- Models `usub` always lands back in `size_t` range. -/
theorem usub_lt (x y : Nat) : usub x y < wsize :=
  Nat.mod_lt _ wsize_pos

theorem one_lt_wsize : 1 < wsize := by
  rw [wsize_eq]
  omega

/-- The explicit constructor at literal 0 stores 0. -/
theorem count_of.ofSize_zero (u : CUnit) : (count_of.ofSize 0 : count_of u) = ⟨0⟩ := by
  rw [count_of.ofSize, Nat.zero_mod]

/-- The explicit constructor at literal 1 stores 1. -/
theorem count_of.ofSize_one (u : CUnit) : (count_of.ofSize 1 : count_of u) = ⟨1⟩ := by
  rw [count_of.ofSize, Nat.mod_eq_of_lt one_lt_wsize]

/-- Models `to_size` on an explicitly constructed count returns the stored magnitude. -/
theorem count_of.to_size_mk {u : CUnit} (n : Nat) :
    (⟨n⟩ : count_of u).to_size = n := rfl

/-- The free `operator-` in constructor form: its `size_t` result needs no reduction. -/
theorem count_of.sub_eq {u : CUnit} (a b : count_of u) :
    a.sub b = ⟨usub a.mag b.mag⟩ := by
  rw [count_of.sub, count_of.ofSize, count_of.to_size, count_of.to_size,
    Nat.mod_eq_of_lt (usub_lt a.mag b.mag)]

/-- Prefix `++` of `safe_array` advances by the count one. -/
theorem safe_array.inc_pre_eq {u : CUnit} (a : safe_array u) :
    a.inc_pre = a.add_assign ⟨1⟩ := by
  rw [safe_array.inc_pre, count_of.ofSize_one]

/-- The `++(int)` of `safe_array` in constructor form. -/
theorem safe_array.inc_post_eq {u : CUnit} (a : safe_array u) :
    a.inc_post = (a, a.add_assign ⟨1⟩) := by
  rw [safe_array.inc_post, count_of.ofSize_one]

end TypedCount

namespace TypedCount

/-- Claim C1: for every pair of units U, V with positive byte size and every
magnitude n, `count_of<U>(n).to_count_of<V>().to_size()` equals
`n * size(U) / size(V)` computed in truncating unsigned (mod `2^64`) integer
arithmetic. -/
theorem C1_unit_conversion (U V : CUnit) (n : Nat)
    (hU : 0 < unit_size U) (hV : 0 < unit_size V) :
    ((count_of.ofSize n (u := U)).to_count_of V).to_size
      = n * unit_size U % wsize / unit_size V := by
  simp only [count_of.ofSize, count_of.to_count_of, count_holder.convert,
    count_of.to_size, Nat.mod_mul_mod]

/-- Witness for C1: converting 3 bytes to a Kb count, the formula instance holds and
its value is 0. -/
theorem C1_unit_conversion_witness :
    0 < unit_size .byte ∧ 0 < unit_size .kb ∧
      (((count_of.ofSize 3 (u := CUnit.byte)).to_count_of .kb).to_size
        = 3 * unit_size .byte % wsize / unit_size .kb) ∧
      ((count_of.ofSize 3 (u := CUnit.byte)).to_count_of .kb).to_size = 0 :=
  ⟨by decide, by decide, C1_unit_conversion .byte .kb 3 (by decide) (by decide),
    by decide⟩

/-- Claim C2: the advancing operations of `safe_array` (`+=`, `+`, and the `++`
forms with N = 1) move the element pointer forward by exactly N elements and
decrease the remaining count by exactly N (for N within the remaining count);
concretely, a view with pointer P and count 6 advanced by 2 becomes (P+2, 4),
and advancing that by 4 leaves remaining count 0 and a boolean-false view. -/
theorem C2_safe_array_advance (u : CUnit) (a : safe_array u) (N : Nat)
    (hc : a.count.to_size < wsize) (hN : N ≤ a.count.to_size) :
    ((a.add_assign ⟨N⟩).pElems = a.pElems + N
      ∧ (a.add_assign ⟨N⟩).count.to_size = a.count.to_size - N)
    ∧ ((a.add ⟨N⟩).pElems = a.pElems + N
      ∧ (a.add ⟨N⟩).count.to_size = a.count.to_size - N)
    ∧ (1 ≤ a.count.to_size →
        a.inc_pre.pElems = a.pElems + 1
        ∧ a.inc_pre.count.to_size = a.count.to_size - 1
        ∧ a.inc_post.1 = a
        ∧ a.inc_post.2 = a.inc_pre)
    ∧ (((⟨a.pElems, ⟨6⟩⟩ : safe_array u).add_assign ⟨2⟩)
        = (⟨a.pElems + 2, ⟨4⟩⟩ : safe_array u)
      ∧ ((⟨a.pElems + 2, ⟨4⟩⟩ : safe_array u).add_assign ⟨4⟩).count.to_size = 0
      ∧ ((⟨a.pElems + 2, ⟨4⟩⟩ : safe_array u).add_assign ⟨4⟩).toBool = false) := by
  have hc' : a.count.mag < wsize := hc
  have hN' : N ≤ a.count.mag := hN
  have h62 : usub 6 2 = 4 := by decide
  have h44 : usub 4 4 = 0 := by decide
  refine ⟨⟨?_, ?_⟩, ⟨?_, ?_⟩, fun h1 => ⟨?_, ?_, ?_, ?_⟩, ?_, ?_, ?_⟩
  · exact rfl
  · show usub a.count.mag N = a.count.mag - N
    exact usub_eq_of_le hN' hc'
  · exact rfl
  · show (a.count.sub ⟨N⟩).to_size = a.count.to_size - N
    rw [count_of.sub_eq]
    show usub a.count.mag N = a.count.mag - N
    exact usub_eq_of_le hN' hc'
  · rw [safe_array.inc_pre_eq]
    exact rfl
  · have h1' : 1 ≤ a.count.mag := h1
    have hcnt : a.inc_pre.count = (⟨a.count.mag - 1⟩ : count_of u) := by
      rw [safe_array.inc_pre_eq]
      show a.count.sub_assign ⟨1⟩ = ⟨a.count.mag - 1⟩
      rw [count_of.sub_assign]
      show (⟨usub a.count.mag 1⟩ : count_of u) = ⟨a.count.mag - 1⟩
      rw [usub_eq_of_le h1' hc']
    rw [hcnt]
    exact rfl
  · exact rfl
  · rw [safe_array.inc_post_eq, safe_array.inc_pre_eq]
  · have hc62 : (⟨6⟩ : count_of u).sub_assign ⟨2⟩ = ⟨4⟩ := by
      rw [count_of.sub_assign]
      show (⟨usub 6 2⟩ : count_of u) = ⟨4⟩
      rw [h62]
    show (⟨a.pElems + 2, (⟨6⟩ : count_of u).sub_assign ⟨2⟩⟩ : safe_array u)
      = ⟨a.pElems + 2, ⟨4⟩⟩
    rw [hc62]
  · have hcnt : ((⟨a.pElems + 2, ⟨4⟩⟩ : safe_array u).add_assign ⟨4⟩).count
        = (⟨0⟩ : count_of u) := by
      show (⟨4⟩ : count_of u).sub_assign ⟨4⟩ = ⟨0⟩
      rw [count_of.sub_assign]
      show (⟨usub 4 4⟩ : count_of u) = ⟨0⟩
      rw [h44]
    rw [hcnt]
    exact rfl
  · have hcount : ((⟨a.pElems + 2, ⟨4⟩⟩ : safe_array u).add_assign ⟨4⟩).count
        = (⟨0⟩ : count_of u) := by
      show (⟨4⟩ : count_of u).sub_assign ⟨4⟩ = ⟨0⟩
      rw [count_of.sub_assign]
      show (⟨usub 4 4⟩ : count_of u) = ⟨0⟩
      rw [h44]
    rw [safe_array.toBool, hcount]
    have hgtb : (⟨0⟩ : count_of u).gtb (count_of.ofSize 0) = false := rfl
    rw [hgtb, Bool.and_false]

/-- Witness for C2: a `char` view at address 100 with count 6, advanced by 2. -/
theorem C2_safe_array_advance_witness :
    (⟨100, ⟨6⟩⟩ : safe_array .ch).count.to_size < wsize ∧
      2 ≤ (⟨100, ⟨6⟩⟩ : safe_array .ch).count.to_size ∧
      ((((⟨100, ⟨6⟩⟩ : safe_array .ch).add_assign ⟨2⟩).pElems = 100 + 2
        ∧ ((⟨100, ⟨6⟩⟩ : safe_array .ch).add_assign ⟨2⟩).count.to_size
            = (⟨100, ⟨6⟩⟩ : safe_array .ch).count.to_size - 2)
      ∧ (((⟨100, ⟨6⟩⟩ : safe_array .ch).add ⟨2⟩).pElems = 100 + 2
        ∧ ((⟨100, ⟨6⟩⟩ : safe_array .ch).add ⟨2⟩).count.to_size
            = (⟨100, ⟨6⟩⟩ : safe_array .ch).count.to_size - 2)
      ∧ (1 ≤ (⟨100, ⟨6⟩⟩ : safe_array .ch).count.to_size →
          (⟨100, ⟨6⟩⟩ : safe_array .ch).inc_pre.pElems = 100 + 1
          ∧ (⟨100, ⟨6⟩⟩ : safe_array .ch).inc_pre.count.to_size
              = (⟨100, ⟨6⟩⟩ : safe_array .ch).count.to_size - 1
          ∧ (⟨100, ⟨6⟩⟩ : safe_array .ch).inc_post.1 = (⟨100, ⟨6⟩⟩ : safe_array .ch)
          ∧ (⟨100, ⟨6⟩⟩ : safe_array .ch).inc_post.2
              = (⟨100, ⟨6⟩⟩ : safe_array .ch).inc_pre)
      ∧ (((⟨100, ⟨6⟩⟩ : safe_array .ch).add_assign ⟨2⟩)
          = (⟨100 + 2, ⟨4⟩⟩ : safe_array .ch)
        ∧ ((⟨100 + 2, ⟨4⟩⟩ : safe_array .ch).add_assign ⟨4⟩).count.to_size = 0
        ∧ ((⟨100 + 2, ⟨4⟩⟩ : safe_array .ch).add_assign ⟨4⟩).toBool = false)) :=
  ⟨by decide, by decide, C2_safe_array_advance .ch ⟨100, ⟨6⟩⟩ 2 (by decide) (by decide)⟩

/-- Claim C3, code evaluated at the failing input: the `_tb` literal of the source
returns a Gb-tagged count, so `1_tb` equals `gb_count(1)` and converts to `1024^3`
bytes, whereas a genuine Tb-tagged count of magnitude 1 converts to `1024^4` bytes;
the other suffixes (`_gb`, `_kb`, ...) do construct counts of their advertised
units. -/
theorem C3_tb_literal_is_gb :
    lit_tb 1 = (count_of.ofSize 1 : count_of .gb)
    ∧ ((lit_tb 1).to_count_of .byte).to_size = 1024 ^ 3
    ∧ (((count_of.ofSize 1 : count_of .tb)).to_count_of .byte).to_size = 1024 ^ 4
    ∧ (1024 ^ 3 : Nat) ≠ 1024 ^ 4
    ∧ lit_gb 1 = (count_of.ofSize 1 : count_of .gb)
    ∧ ((lit_gb 1).to_count_of .byte).to_size = 1024 ^ 3
    ∧ lit_kb 1 = (count_of.ofSize 1 : count_of .kb)
    ∧ ((lit_kb 1).to_count_of .byte).to_size = 1024 :=
  ⟨rfl, by decide, by decide, by decide, rfl, by decide, rfl, by decide⟩

/-- Claim C4: `safe_array`'s conversion to bool is true exactly when the stored
element pointer is non-null and the remaining count is strictly positive. -/
theorem C4_safe_array_bool (u : CUnit) (a : safe_array u) :
    a.toBool = true ↔ (a.pElems ≠ 0 ∧ 0 < a.count.to_size) := by
  simp only [safe_array.toBool, count_of.gtb, count_of.leb, count_of.ltb,
    count_of.eqb, count_of.ofSize_zero, count_of.to_size,
    Bool.and_eq_true, Bool.not_eq_true', Bool.or_eq_false_iff, bne_iff_ne,
    ne_eq, decide_eq_false_iff_not, Nat.not_lt, beq_eq_false_iff_ne]
  omega

/-- The `count_ > count_t(0)` test of `safe_array::operator bool`, reduced to the
magnitude being positive. -/
theorem gtb_zero_iff {u : CUnit} (c : count_of u) :
    (c.gtb (count_of.ofSize 0) = true) ↔ 0 < c.mag := by
  rw [count_of.ofSize_zero, count_of.gtb, count_of.leb, count_of.ltb, count_of.eqb]
  show (!(decide (c.mag < 0) || (c.mag == 0))) = true ↔ 0 < c.mag
  simp only [Bool.not_eq_true', Bool.or_eq_false_iff, decide_eq_false_iff_not,
    Nat.not_lt, beq_eq_false_iff_ne, ne_eq]
  omega

/-- A boolean `!= 0` test on `Nat`, reduced to disequality. -/
theorem bne_zero_iff (n : Nat) : ((n != 0) = true) ↔ n ≠ 0 := by
  cases n with
  | zero => simp
  | succ k => simp

/-- Claim C5: for same-unit counts, `(a + b) - b == a` exactly, under unsigned
wraparound arithmetic. -/
theorem C5_add_sub_cancel (u : CUnit) (a b : count_of u)
    (ha : a.to_size < wsize) (hb : b.to_size < wsize) :
    ((a.add b).sub b).eqb a = true := by
  have ha' : a.mag < wsize := ha
  have hb' : b.mag < wsize := hb
  have hkey : usub ((a.mag + b.mag) % wsize) b.mag = a.mag := by
    simp only [usub, wsize] at *
    omega
  have hadd : a.add b = (⟨(a.to_size + b.to_size) % wsize⟩ : count_of u) := by
    rw [count_of.add, count_of.ofSize]
  rw [hadd, count_of.sub_eq, count_of.eqb]
  show (usub ((a.mag + b.mag) % wsize) b.mag == a.mag) = true
  rw [hkey]
  simp

/-- Witness for C5: `(2 + 5) - 5 == 2` for `char` counts. -/
theorem C5_add_sub_cancel_witness :
    (⟨2⟩ : count_of .ch).to_size < wsize ∧ (⟨5⟩ : count_of .ch).to_size < wsize ∧
      (((⟨2⟩ : count_of .ch).add ⟨5⟩).sub ⟨5⟩).eqb ⟨2⟩ = true :=
  ⟨by decide, by decide, C5_add_sub_cancel .ch ⟨2⟩ ⟨5⟩ (by decide) (by decide)⟩

/-- Claim C6: same-unit subtraction wraps modulo `2^64`: `(a - b).to_size()` is
`(a.to_size() - b.to_size()) mod 2^64` as integers, also for the compound `-=`,
with no saturation or failure report. -/
theorem C6_sub_wraps (u : CUnit) (a b : count_of u)
    (ha : a.to_size < wsize) (hb : b.to_size < wsize) :
    ((a.sub b).to_size : Int)
        = ((a.to_size : Int) - (b.to_size : Int)) % 18446744073709551616
    ∧ ((a.sub_assign b).to_size : Int)
        = ((a.to_size : Int) - (b.to_size : Int)) % 18446744073709551616
    ∧ a.sub_assign b = a.sub b := by
  have hs : a.sub b = (⟨usub a.mag b.mag⟩ : count_of u) := count_of.sub_eq a b
  have hsa : a.sub_assign b = (⟨usub a.mag b.mag⟩ : count_of u) := by
    rw [count_of.sub_assign]
  refine ⟨?_, ?_, ?_⟩
  · rw [hs]
    show ((usub a.mag b.mag : Nat) : Int)
        = ((a.mag : Int) - (b.mag : Int)) % 18446744073709551616
    exact usub_emod a.mag b.mag
  · rw [hsa]
    show ((usub a.mag b.mag : Nat) : Int)
        = ((a.mag : Int) - (b.mag : Int)) % 18446744073709551616
    exact usub_emod a.mag b.mag
  · rw [hs, hsa]

/-- Witness for C6: `2 - 5` on `char` counts wraps to `2^64 - 3`. -/
theorem C6_sub_wraps_witness :
    (⟨2⟩ : count_of .ch).to_size < wsize ∧ (⟨5⟩ : count_of .ch).to_size < wsize ∧
      ((((⟨2⟩ : count_of .ch).sub ⟨5⟩).to_size : Int)
          = (((⟨2⟩ : count_of .ch).to_size : Int)
              - ((⟨5⟩ : count_of .ch).to_size : Int)) % 18446744073709551616
        ∧ (((⟨2⟩ : count_of .ch).sub_assign ⟨5⟩).to_size : Int)
          = (((⟨2⟩ : count_of .ch).to_size : Int)
              - ((⟨5⟩ : count_of .ch).to_size : Int)) % 18446744073709551616
        ∧ (⟨2⟩ : count_of .ch).sub_assign ⟨5⟩ = (⟨2⟩ : count_of .ch).sub ⟨5⟩) :=
  ⟨by decide, by decide, C6_sub_wraps .ch ⟨2⟩ ⟨5⟩ (by decide) (by decide)⟩

/-- Claim C7: `page_count(128).to_count_of<Kb>()` equals `count_of<Kb>(1024)`:
one page is 8192 bytes, one Kb is 1024 bytes, and 128 * 8192 / 1024 = 1024. -/
theorem C7_page_to_kb :
    ((count_of.ofSize 128 : count_of .page).to_count_of .kb).eqb
        (count_of.ofSize 1024) = true
    ∧ (count_of.ofSize 128 : count_of .page).to_count_of .kb
        = (count_of.ofSize 1024 : count_of .kb) :=
  ⟨by decide, by decide⟩

/-- Claim C8: the six convenience conversions equal their two-step forms:
`to_count_of` to byte or wchar followed by `to_size`/`to_int`/`to_ulong`. -/
theorem C8_convenience_conversions (u : CUnit) (c : count_of u) :
    c.to_byte_count = (c.to_count_of .byte).to_size
    ∧ c.to_int_byte_count = (c.to_count_of .byte).to_int
    ∧ c.to_ulong_byte_count = (c.to_count_of .byte).to_ulong
    ∧ c.to_wchar_count = (c.to_count_of .wchar).to_size
    ∧ c.to_int_wchar_count = (c.to_count_of .wchar).to_int
    ∧ c.to_ulong_wchar_count = (c.to_count_of .wchar).to_ulong :=
  ⟨rfl, rfl, rfl, rfl, rfl, rfl⟩

/-- Claim C9: postfix `++` returns the value before the call while the object's
magnitude becomes one greater mod `2^64`; postfix `--` returns the prior value
while the magnitude becomes one smaller mod `2^64`; the prefix forms return the
already-updated count. -/
theorem C9_inc_dec (u : CUnit) (c : count_of u) (hc : c.to_size < wsize) :
    c.inc_post.1 = c
    ∧ ((c.inc_post.2.to_size : Int)
        = ((c.to_size : Int) + 1) % 18446744073709551616)
    ∧ c.dec_post.1 = c
    ∧ ((c.dec_post.2.to_size : Int)
        = ((c.to_size : Int) - 1) % 18446744073709551616)
    ∧ c.inc_pre = c.inc_post.2
    ∧ c.dec_pre = c.dec_post.2 := by
  have hi : c.inc_post.2 = (⟨(c.mag + 1) % wsize⟩ : count_of u) := by
    rw [count_of.inc_post]
    show c.inc_pre = ⟨(c.mag + 1) % wsize⟩
    rw [count_of.inc_pre]
  have hd : c.dec_post.2 = (⟨usub c.mag 1⟩ : count_of u) := by
    rw [count_of.dec_post]
    show c.dec_pre = ⟨usub c.mag 1⟩
    rw [count_of.dec_pre]
  refine ⟨rfl, ?_, rfl, ?_, ?_, ?_⟩
  · rw [hi]
    show (((c.mag + 1) % wsize : Nat) : Int)
        = ((c.mag : Int) + 1) % 18446744073709551616
    simp only [wsize]
    omega
  · rw [hd, count_of.to_size_mk, usub_emod, Nat.cast_one, count_of.to_size]
  · rw [count_of.inc_post]
  · rw [count_of.dec_post]

/-- Witness for C9 at the `char` count 7. -/
theorem C9_inc_dec_witness :
    (⟨7⟩ : count_of .ch).to_size < wsize ∧
      ((⟨7⟩ : count_of .ch).inc_post.1 = ⟨7⟩
      ∧ (((⟨7⟩ : count_of .ch).inc_post.2.to_size : Int)
          = (((⟨7⟩ : count_of .ch).to_size : Int) + 1) % 18446744073709551616)
      ∧ (⟨7⟩ : count_of .ch).dec_post.1 = ⟨7⟩
      ∧ (((⟨7⟩ : count_of .ch).dec_post.2.to_size : Int)
          = (((⟨7⟩ : count_of .ch).to_size : Int) - 1) % 18446744073709551616)
      ∧ (⟨7⟩ : count_of .ch).inc_pre = (⟨7⟩ : count_of .ch).inc_post.2
      ∧ (⟨7⟩ : count_of .ch).dec_pre = (⟨7⟩ : count_of .ch).dec_post.2) :=
  ⟨by decide, C9_inc_dec .ch ⟨7⟩ (by decide)⟩

/-- Claim C10: advancing a non-null `safe_array` by a distance d strictly greater
than the remaining count c leaves the count equal to `(c - d) mod 2^64`, which is
nonzero, so the view stays boolean-true rather than becoming empty, clamping, or
signaling an error. -/
theorem C10_over_advance (u : CUnit) (a : safe_array u) (d : Nat)
    (hp : a.pElems ≠ 0) (hcd : a.count.to_size < d) (hd : d < wsize) :
    ((a.add_assign ⟨d⟩).count.to_size : Int)
        = ((a.count.to_size : Int) - (d : Int)) % 18446744073709551616
    ∧ (a.add_assign ⟨d⟩).count.to_size ≠ 0
    ∧ (a.add_assign ⟨d⟩).toBool = true := by
  have hcd' : a.count.mag < d := hcd
  have hcnt : (a.add_assign ⟨d⟩).count = (⟨usub a.count.mag d⟩ : count_of u) := by
    show a.count.sub_assign ⟨d⟩ = ⟨usub a.count.mag d⟩
    rw [count_of.sub_assign]
  have hval : usub a.count.mag d = a.count.mag + (18446744073709551616 - d) := by
    simp only [usub, wsize] at *
    omega
  have hpe : (a.add_assign ⟨d⟩).pElems = a.pElems + d := rfl
  refine ⟨?_, ?_, ?_⟩
  · rw [hcnt]
    show ((usub a.count.mag d : Nat) : Int)
        = ((a.count.mag : Int) - (d : Int)) % 18446744073709551616
    exact usub_emod a.count.mag d
  · rw [hcnt]
    show usub a.count.mag d ≠ 0
    rw [hval]
    simp only [wsize] at hd
    omega
  · rw [safe_array.toBool, Bool.and_eq_true]
    refine ⟨?_, ?_⟩
    · rw [hpe, bne_zero_iff]
      omega
    · rw [hcnt, gtb_zero_iff]
      show 0 < usub a.count.mag d
      rw [hval]
      simp only [wsize] at hd
      omega

/-- Witness for C10: a `char` view at address 1 with count 2, advanced by 5. -/
theorem C10_over_advance_witness :
    (⟨1, ⟨2⟩⟩ : safe_array .ch).pElems ≠ 0 ∧
      (⟨1, ⟨2⟩⟩ : safe_array .ch).count.to_size < 5 ∧ 5 < wsize ∧
      ((((⟨1, ⟨2⟩⟩ : safe_array .ch).add_assign ⟨5⟩).count.to_size : Int)
          = (((⟨1, ⟨2⟩⟩ : safe_array .ch).count.to_size : Int) - (5 : Int))
              % 18446744073709551616
        ∧ ((⟨1, ⟨2⟩⟩ : safe_array .ch).add_assign ⟨5⟩).count.to_size ≠ 0
        ∧ ((⟨1, ⟨2⟩⟩ : safe_array .ch).add_assign ⟨5⟩).toBool = true) :=
  ⟨by decide, by decide, by decide,
    C10_over_advance .ch ⟨1, ⟨2⟩⟩ 5 (by decide) (by decide) (by decide)⟩

end TypedCount
